import Mathlib

set_option maxRecDepth 2000

/-!
Verification of the hybrid VC-IPO extraction pipeline
(`extract_vc_from_pdf.py`): a shallow embedding of its pure core
(candidate scanning, role tagging, percent normalization, rule-based
record construction, LLM-reply handling, and the merge resolver),
followed by theorems settling the specification's claims about it.

Python strings are embedded as `String` / `List Char`; Python floats
as `Rat` (all values reaching the numeric paths are finite decimals);
JSON values as the inductive `PyVal`; a Python `dict` produced by
`json.loads` as an association list.
-/

namespace VCExtract

/-! ## Python string primitives -/

/-- The ASCII whitespace recognized by Python's `str.strip()` and by `\s`
in its regexes (the rare non-ASCII whitespace code points are not used by
the texts this pipeline manipulates and are omitted). -/
def pySpaceB (c : Char) : Bool :=
  c = ' ' || c = '\t' || c = '\n' || c = '\r' || c = '\x0b' || c = '\x0c'

/-- Whether `pat` is an initial segment of `cs`: `listStarts pat cs` holds when `pat` is an initial segment of `cs`. -/
def listStarts : List Char → List Char → Bool
  | [], _ => true
  | _ :: _, [] => false
  | p :: ps, c :: cs => p == c && listStarts ps cs

/-- Python's substring test `pat in hay` on character lists. -/
def isSubstr (pat : List Char) : List Char → Bool
  | [] => pat.isEmpty
  | c :: cs => listStarts pat (c :: cs) || isSubstr pat cs

/-- Python's `needle in hay` on strings. -/
def strIn (needle hay : String) : Bool :=
  isSubstr needle.toList hay.toList

/-- Python's `str.strip()` (no argument): remove leading and trailing
whitespace. -/
def pyStripChars (cs : List Char) : List Char :=
  ((cs.dropWhile pySpaceB).reverse.dropWhile pySpaceB).reverse

/-- Python's `str.strip()` on `String`. -/
def pyStrip (s : String) : String :=
  String.mk (pyStripChars s.toList)

/-- Python's `str.strip(chars)`: remove leading and trailing characters
drawn from `chars`. -/
def pyStripOn (chars : List Char) (cs : List Char) : List Char :=
  ((cs.dropWhile (chars.contains ·)).reverse.dropWhile (chars.contains ·)).reverse

/-- Python's `str.splitlines()`: split at `\r\n`, `\n` or `\r`
(the rare extra Unicode line boundaries are not produced by the
pipeline's texts and are omitted); a trailing terminator does not
produce a final empty line. -/
def splitlinesAux (acc : List Char) : List Char → List (List Char)
  | [] => if acc.isEmpty then [] else [acc.reverse]
  | '\r' :: '\n' :: rest => acc.reverse :: splitlinesAux [] rest
  | '\n' :: rest => acc.reverse :: splitlinesAux [] rest
  | '\r' :: rest => acc.reverse :: splitlinesAux [] rest
  | c :: rest => splitlinesAux (c :: acc) rest

/-- Python's `text.splitlines()` as a list of line strings. -/
def pyLines (s : String) : List String :=
  (splitlinesAux [] s.toList).map String.mk

/-! ## Python numerics

Floats are embedded as `Rat`: every number this pipeline computes with
is a short decimal literal (percent tokens with at most two fraction
digits), all exactly representable, so rational arithmetic coincides
with the Python float arithmetic actually performed. -/

/-- Value of a digit list, most significant first. -/
def digitsVal (ds : List Char) : Nat :=
  ds.foldl (fun acc c => 10 * acc + (c.toNat - '0'.toNat)) 0

/-- Python's `float(s)` on its decimal-literal fragment:
optional sign, then `digits[.digits]` or `.digits`, then an optional
exponent part; `none` models the `ValueError`.  The special forms
(`inf`, `nan`, embedded underscores, surrounding whitespace — the
callers have already stripped whitespace) are not produced by this
pipeline's inputs and are not modelled. -/
def pyFloat? (s : String) : Option Rat :=
  let cs := s.toList
  let (sgn, cs) : Rat × List Char :=
    match cs with
    | '+' :: rest => (1, rest)
    | '-' :: rest => (-1, rest)
    | _ => (1, cs)
  let ip := cs.takeWhile Char.isDigit
  let cs := cs.drop ip.length
  let (fp, cs, mantOk) : List Char × List Char × Bool :=
    match cs with
    | '.' :: rest =>
      let fp := rest.takeWhile Char.isDigit
      (fp, rest.drop fp.length, !ip.isEmpty || !fp.isEmpty)
    | _ => ([], cs, !ip.isEmpty)
  if !mantOk then none
  else
    let mant : Rat := (digitsVal ip : Rat) + (digitsVal fp : Rat) / (10 : Rat) ^ fp.length
    match cs with
    | [] => some (sgn * mant)
    | e :: rest =>
      if e = 'e' || e = 'E' then
        let (esgn, rest) : Int × List Char :=
          match rest with
          | '+' :: r => (1, r)
          | '-' :: r => (-1, r)
          | _ => (1, rest)
        let eds := rest.takeWhile Char.isDigit
        if eds.isEmpty || !(rest.drop eds.length).isEmpty then none
        else some (sgn * mant * (10 : Rat) ^ (esgn * digitsVal eds))
      else none

/-- Round to the nearest integer, halves to even — the rounding used by
Python's `format(x, ".2f")` on the exactly-representable values at hand. -/
def roundHalfEven (q : Rat) : Int :=
  let f := q.floor
  let r := q - f
  if r < 1/2 then f
  else if 1/2 < r then f + 1
  else if f % 2 = 0 then f else f + 1

/-- Left-pad a numeral below 100 to two digits. -/
def pad2 (n : Int) : String :=
  if n < 10 then "0" ++ toString n else toString n

/-- Python's `f"{pct:.2f}"` for the nonnegative values this pipeline
formats. -/
def fmt2 (q : Rat) : String :=
  let n := roundHalfEven (q * 100)
  toString (n / 100) ++ "." ++ pad2 (n % 100)

/-- Python's `str(x)` on a nonnegative float whose value is a multiple of
1/100 — the only floats this pipeline converts back to strings (candidate
percents parsed from at-most-two-fraction-digit tokens).  Matches `repr`:
minimal fraction digits, at least one (`str(12.5) = "12.5"`,
`str(0.0) = "0.0"`). -/
def pyFloatStr (q : Rat) : String :=
  let ip := q.floor
  let h := ((q - ip) * 100).floor
  if h = 0 then toString ip ++ ".0"
  else if h % 10 = 0 then toString ip ++ "." ++ toString (h / 10)
  else toString ip ++ "." ++ pad2 h

/-- Source lines 167–177, `normalize_percent_str(val, fallback)`:
`None`/empty falls back; otherwise every `"%"` is removed, the rest is
stripped and parsed as a float, falling back on a parse failure; the
result is clamped to `[0, 100]` and formatted as a two-decimal
percentage. -/
def normalize_percent_str (val : Option String) (fallback : Rat) : String :=
  let pct : Rat :=
    match val with
    | none => fallback
    | some v =>
      if v = "" then fallback
      else
        let cleaned := pyStrip (String.mk (v.toList.filter (· ≠ '%')))
        match pyFloat? cleaned with
        | some x => x
        | none => fallback
  let pct := max 0 (min 100 pct)
  fmt2 pct ++ "%"

/-! ## Candidate Scanner (`extract_vc_candidates`, source lines 109–143) -/

/-- Source lines 43–58, `VC_KEYWORDS`. -/
def VC_KEYWORDS : List String :=
  ["创投", "创业投资", "投资", "投资公司", "投资基金", "风险投资", "风投",
   "资本", "基金", "高新投", "科投", "创富", "高科", "天使"]

/-- The character class `[一-龥A-Za-z0-9（）()·\-]` of the
candidate-name pattern. -/
def nameClassB (c : Char) : Bool :=
  (0x4e00 ≤ c.toNat && c.toNat ≤ 0x9fa5) || c.isAlpha || c.isDigit ||
    c = '（' || c = '）' || c = '(' || c = ')' || c = '·' || c = '-'

/-- The suffix alternation `(?:基金|创投|资本|投资公司|投资|创业投资|合伙|风投)`
of the candidate-name pattern, in the regex's left-to-right order. -/
def NAME_SUFFIXES : List (List Char) :=
  ["基金".toList, "创投".toList, "资本".toList, "投资公司".toList,
   "投资".toList, "创业投资".toList, "合伙".toList, "风投".toList]

/-- One attempt of the lazy quantifier: exactly `k` class characters at
the start of `cs`, followed by the first suffix alternative that fits;
the capture group is prefix plus suffix. -/
def nameHereK (cs : List Char) (k : Nat) : Option (List Char) :=
  let pre := cs.take k
  if pre.length = k && pre.all nameClassB then
    NAME_SUFFIXES.findSome? fun suf =>
      if listStarts suf (cs.drop k) then some (pre ++ suf) else none
  else none

/-- The name pattern anchored at the start of `cs`: the lazy `{2,50}?`
tries the shortest class-character run first. -/
def nameHere (cs : List Char) : Option (List Char) :=
  (List.range' 2 49).findSome? (nameHereK cs)

/-- Python's `re.search` of the candidate-name pattern: first match at the
leftmost starting position. -/
def nameSearch : List Char → Option (List Char)
  | [] => none
  | c :: cs =>
    match nameHere (c :: cs) with
    | some nm => some nm
    | none => nameSearch cs

/-- Match `\s*%` at `cs`, returning the number of characters consumed. -/
def pctTail (cs : List Char) : Option Nat :=
  let sp := (cs.takeWhile pySpaceB).length
  match cs.drop sp with
  | '%' :: _ => some (sp + 1)
  | _ => none

/-- Try a fractional part of exactly `n` digits (`\.\d{n}`) followed by
`\s*%`; returns the captured fraction characters and the characters
consumed. -/
def pctFrac (cs : List Char) (n : Nat) : Option (List Char × Nat) :=
  match cs with
  | '.' :: rest =>
    let ds := rest.take n
    if ds.length = n && ds.all Char.isDigit then
      (pctTail (rest.drop n)).map fun t => ('.' :: ds, 1 + n + t)
    else none
  | _ => none

/-- After the integer digits: the greedy optional fraction
`(?:\.\d{1,2})?` (two digits, then one, then none) followed by `\s*%`. -/
def pctAfterDigits (cs : List Char) : Option (List Char × Nat) :=
  (pctFrac cs 2).orElse fun _ =>
    (pctFrac cs 1).orElse fun _ =>
      (pctTail cs).map fun t => ([], t)

/-- The percent pattern `(\d{1,3}(?:\.\d{1,2})?)\s*%` anchored at `cs`:
the greedy `\d{1,3}` tries three digits, then two, then one.  Returns
the capture group and the total characters consumed (at least one). -/
def pctHere (cs : List Char) : Option (String × Nat) :=
  let tryD (d : Nat) : Option (String × Nat) :=
    let ds := cs.take d
    if ds.length = d && ds.all Char.isDigit then
      (pctAfterDigits (cs.drop d)).map fun (f, t) => (String.mk (ds ++ f), d + t)
    else none
  (tryD 3).orElse fun _ => (tryD 2).orElse fun _ => tryD 1

/-- Python's `re.findall` of the percent pattern: leftmost matches, scanning
resuming after each match.  The fuel starts at the list length; every
step consumes at least one character, so it never runs out. -/
def pctFindallAux : Nat → List Char → List String
  | 0, _ => []
  | _, [] => []
  | fuel + 1, c :: rest =>
    match pctHere (c :: rest) with
    | some (g, k) => g :: pctFindallAux fuel ((c :: rest).drop k)
    | none => pctFindallAux fuel rest

/-- Source line 126, `percent_pattern.findall(line)`. -/
def pctFindall (cs : List Char) : List String :=
  pctFindallAux cs.length cs

/-- Lines 125–133: the percent for one line — every percent token,
parsed, those above 100 discarded, the maximum of the survivors;
`none` when no token survives. -/
def linePercent? (cs : List Char) : Option Rat :=
  let cands := ((pctFindall cs).filterMap pyFloat?).filter (· ≤ 100)
  cands.max?

/-- Lines 121–139, one iteration: a line yields a hit only if it
contains a VC keyword and the name pattern matches; the hit pairs the
first name match with the line's percent, defaulted to `0.0`. -/
def lineHit? (cs : List Char) : Option (String × Rat) :=
  if VC_KEYWORDS.any (fun k => isSubstr k.toList cs) then
    match nameSearch cs with
    | some nm => some (String.mk nm, (linePercent? cs).getD 0)
    | none => none
  else none

/-- The hit list in original line order. -/
def vcHits (text : String) : List (String × Rat) :=
  (splitlinesAux [] text.toList).filterMap lineHit?

/-- Python's stable `sorted(hits, key=lambda x: x[1], reverse=True)`,
as insertion sort: an element is placed before the first element whose
key is not larger, keeping equal keys in original order. -/
def insertDesc (x : String × Rat) : List (String × Rat) → List (String × Rat)
  | [] => [x]
  | y :: ys => if y.2 ≤ x.2 then x :: y :: ys else y :: insertDesc x ys

/-- Stable descending sort by the percent component. -/
def sortDesc : List (String × Rat) → List (String × Rat)
  | [] => []
  | x :: xs => insertDesc x (sortDesc xs)

/-- Source lines 109–143, `extract_vc_candidates`. -/
def extract_vc_candidates (text : String) : List (String × Rat) :=
  sortDesc (vcHits text)

/-- Source lines 146–149, `pick_best_candidate`. -/
def pick_best_candidate (candidates : List (String × Rat)) : String × Rat :=
  match candidates with
  | [] => ("", 0)
  | c :: _ => c

/-! ## Role Tagger (`flag_role`, source lines 152–164) -/

/-- Source lines 60–64, the board entry of `ROLE_KEYWORDS`. -/
def ROLE_KEYWORDS_board : List String := ["董事", "董事长"]

/-- Supervisor keywords. -/
def ROLE_KEYWORDS_supervisor : List String := ["监事"]

/-- Executive keywords. -/
def ROLE_KEYWORDS_executive : List String :=
  ["高级管理人员", "高管", "总经理", "副总", "经理", "执行董事"]

/-- The loop body of `flag_role` at index `idx`: the line contains the
VC name together with a keyword, or contains the VC name while the
previous (when it exists) or next (when it exists) line has a keyword. -/
def roleHitAt (lines : List String) (vc_name : String) (keywords : List String)
    (idx : Nat) : Bool :=
  match lines[idx]? with
  | none => false
  | some line =>
    (strIn vc_name line && keywords.any (fun k => strIn k line)) ||
    (strIn vc_name line &&
      ((decide (0 < idx) &&
         (match lines[idx - 1]? with
          | some prev => keywords.any (fun k => strIn k prev)
          | none => false)) ||
       (decide (idx + 1 < lines.length) &&
         (match lines[idx + 1]? with
          | some next => keywords.any (fun k => strIn k next)
          | none => false))))

/-- Source lines 152–164, `flag_role`: `"0"` for an empty name;
otherwise `"1"` exactly when some line index fires the loop body. -/
def flag_role (text vc_name : String) (keywords : List String) : String :=
  if vc_name = "" then "0"
  else
    let lines := pyLines text
    if (List.range lines.length).any (roleHitAt lines vc_name keywords) then "1" else "0"

/-! ## Stock-code and company-name extraction
(`extract_code_and_name`, source lines 78–106) -/

/-- Python's `re.search(r"(\d{6})", s)`: the leftmost run of six digits. -/
def searchSixDigits : List Char → Option String
  | [] => none
  | c :: cs =>
    let pre := (c :: cs).take 6
    if pre.length = 6 && pre.all Char.isDigit then some (String.mk pre)
    else searchSixDigits cs

/-- Split at the first occurrence of `sep`, Python's `s.split(sep, 1)`:
`none` when `sep` does not occur. -/
def splitFirst (sep : Char) : List Char → Option (List Char × List Char)
  | [] => none
  | c :: cs =>
    if c = sep then some ([], cs)
    else (splitFirst sep cs).map fun (l, r) => (c :: l, r)

/-- Python's `re.sub(r"-\d+.*", "", tail)`: each `-` followed by digits, and the
rest of that line, is deleted; scanning resumes at the line break.  The
fuel starts at the list length and every step consumes at least one
character. -/
def subDashNumAux : Nat → List Char → List Char
  | 0, cs => cs
  | _, [] => []
  | fuel + 1, c :: rest =>
    if c = '-' then
      match rest with
      | d :: _ =>
        if d.isDigit then
          subDashNumAux fuel ((rest.dropWhile Char.isDigit).dropWhile (· ≠ '\n'))
        else c :: subDashNumAux fuel rest
      | [] => [c]
    else c :: subDashNumAux fuel rest

/-- Python's `re.sub(r"-\d+.*", "", tail)` with adequate fuel. -/
def subDashNum (cs : List Char) : List Char :=
  subDashNumAux cs.length cs

/-- After a code label: `[:：]?\s*(\d{6})` — the optional colon is taken
greedily, with the regex's backtracking fallback of not taking it. -/
def labeledCodeTail (cs : List Char) : Option String :=
  let attempt (cs2 : List Char) : Option String :=
    let ds := (cs2.dropWhile pySpaceB).take 6
    if ds.length = 6 && ds.all Char.isDigit then some (String.mk ds) else none
  match cs with
  | c :: rest =>
    if c = ':' || c = '：' then (attempt rest).orElse fun _ => attempt cs
    else attempt cs
  | [] => attempt []

/-- Python's `re.search(r"(?:股票代码|证券代码)[:：]?\s*(\d{6})", text)`. -/
def searchLabeledCode : List Char → Option String
  | [] => none
  | c :: cs =>
    let here :=
      if listStarts "股票代码".toList (c :: cs) || listStarts "证券代码".toList (c :: cs) then
        labeledCodeTail ((c :: cs).drop 4)
      else none
    match here with
    | some s => some s
    | none => searchLabeledCode cs

/-- The character class `[^\s\(\)；;，、\n]` of the company-name
pattern. -/
def companyClassB (c : Char) : Bool :=
  !(pySpaceB c || c = '(' || c = ')' || c = '；' || c = ';' || c = '，' || c = '、')

/-- After a name label: `[:：]?\s*([^\s\(\)；;，、\n]{2,12})` — optional
colon taken greedily (backtracking to not taking it, in which case the
colon itself may open the greedy class run of two to twelve
characters). -/
def labeledNameTail (cs : List Char) : Option String :=
  let attempt (cs2 : List Char) : Option String :=
    let run := ((cs2.dropWhile pySpaceB).takeWhile companyClassB).take 12
    if 2 ≤ run.length then some (String.mk run) else none
  match cs with
  | c :: rest =>
    if c = ':' || c = '：' then (attempt rest).orElse fun _ => attempt cs
    else attempt cs
  | [] => attempt []

/-- Python's `re.search(r"(?:公司简称|发行人)[:：]?\s*([^\s\(\)；;，、\n]{2,12})", text)`. -/
def searchLabeledName : List Char → Option String
  | [] => none
  | c :: cs =>
    let here :=
      if listStarts "公司简称".toList (c :: cs) then labeledNameTail ((c :: cs).drop 4)
      else if listStarts "发行人".toList (c :: cs) then labeledNameTail ((c :: cs).drop 3)
      else none
    match here with
    | some s => some s
    | none => searchLabeledName cs

/-- Source lines 78–106, `extract_code_and_name(filename, text)`. -/
def extract_code_and_name (filename text : String) : String × String :=
  let code :=
    match searchSixDigits filename.toList with
    | some c => c
    | none => ""
  let name :=
    match splitFirst '_' filename.toList with
    | none => ""
    | some (_, tail0) =>
      let tail1 := match splitFirst ':' tail0 with | some (l, _) => l | none => tail0
      let tail2 := match splitFirst '：' tail1 with | some (l, _) => l | none => tail1
      let tail3 := pyStripOn [' ', '_', '-'] (subDashNum tail2)
      if 2 ≤ tail3.length && tail3.length ≤ 12 then String.mk tail3 else ""
  let code :=
    if code = "" then
      match searchLabeledCode text.toList with
      | some c => c
      | none => ""
    else code
  let name :=
    if name = "" then
      match searchLabeledName text.toList with
      | some n => n
      | none => ""
    else name
  (code, name)

/-! ## The extraction record and the Rule Engine
(`rule_based_result`, source lines 180–202) -/

/-- The ten-field record (`FIELDNAMES`, source lines 30–41), with the
specification's English field names; the source's literal Chinese dict
keys map to them in order: 股票代码 ↦ `stockCode`, 公司简称 ↦
`companyName`, 最大风投机构名称 ↦ `vcName`, 最大风投机构股权占比 ↦
`vcPercent`, 风投机构是否委派董事/监事/高管 ↦ the three flags,
风投机构委派董事/监事/高管的类型 ↦ the three type fields. -/
structure ExtractionRecord where
  stockCode : String
  companyName : String
  vcName : String
  vcPercent : String
  hasBoardAppointee : String
  hasSupervisorAppointee : String
  hasExecutiveAppointee : String
  boardAppointeeType : String
  supervisorAppointeeType : String
  executiveAppointeeType : String
deriving DecidableEq, Repr

/-- Source lines 180–202, `rule_based_result(text, filename)`: the
deterministic record plus the ranked candidate list. -/
def rule_based_result (text filename : String) :
    ExtractionRecord × List (String × Rat) :=
  let cn := extract_code_and_name filename text
  let candidates := extract_vc_candidates text
  let best := pick_best_candidate candidates
  let vc_name := best.1
  let vc_percent := best.2
  let board_flag := flag_role text vc_name ROLE_KEYWORDS_board
  let supervisor_flag := flag_role text vc_name ROLE_KEYWORDS_supervisor
  let exec_flag := flag_role text vc_name ROLE_KEYWORDS_executive
  let percent_str :=
    if vc_name ≠ "" then normalize_percent_str (some (pyFloatStr vc_percent)) 0
    else "0%"
  ({ stockCode := cn.1
     companyName := cn.2
     vcName := vc_name
     vcPercent := percent_str
     hasBoardAppointee := board_flag
     hasSupervisorAppointee := supervisor_flag
     hasExecutiveAppointee := exec_flag
     boardAppointeeType := ""
     supervisorAppointeeType := ""
     executiveAppointeeType := "" },
   candidates)

/-! ## JSON values and the Merge Resolver
(`merge_results`, source lines 276–305) -/

/-- The JSON values a parsed model reply can hold at a field.  Strings,
integers, booleans and null cover every behaviour of the merge: any
non-string value fails the `isinstance(val, str)` tests identically,
and `str(val)` of an integer is its numeral (floats, arrays and nested
objects behave on every merge path like one of these and are omitted). -/
inductive PyVal where
  | pstr (s : String)
  | pint (n : Int)
  | pbool (b : Bool)
  | pnull
deriving DecidableEq, Repr

/-- Python's `str(val)` on the embedded JSON values. -/
def pyToStr : PyVal → String
  | .pstr s => s
  | .pint n => toString n
  | .pbool true => "True"
  | .pbool false => "False"
  | .pnull => "None"

/-- A parsed JSON object: an association list (`json.loads` keeps one
binding per key). -/
def LLMDict := List (String × PyVal)
deriving instance DecidableEq for LLMDict

/-- Python's `llm.get(key, "")`. -/
def llmGet (llm : LLMDict) (key : String) : PyVal :=
  match List.lookup key (llm : List (String × PyVal)) with
  | some v => v
  | none => .pstr ""

/-- Source lines 276–305, `merge_results(rule, llm)`.  The test `if not llm`
covers both an absent reply (`None`) and an empty dict.  Each loop
iteration writes one distinct key of the copied dict; the conditional
writes appear as conditional field values. -/
def merge_results (rule : ExtractionRecord) (llm? : Option LLMDict) : ExtractionRecord :=
  match llm? with
  | none => rule
  | some llm =>
    if llm = ([] : List (String × PyVal)) then rule
    else
      -- `result = dict(rule)`: each loop iteration writes one distinct key
      -- of the copy, so every key's fallback is the copied rule value and
      -- the sequential writes assemble the record below, field for field.
      { stockCode :=
          (match llmGet llm "股票代码" with
           | .pstr s => if pyStrip s = "" then rule.stockCode else pyStrip s
           | _ => rule.stockCode)
        companyName :=
          (match llmGet llm "公司简称" with
           | .pstr s => if pyStrip s = "" then rule.companyName else pyStrip s
           | _ => rule.companyName)
        vcName :=
          (match llmGet llm "最大风投机构名称" with
           | .pstr s => if pyStrip s = "" then rule.vcName else pyStrip s
           | _ => rule.vcName)
        -- percent normalization (lines 289–291)
        vcPercent :=
          (match llmGet llm "最大风投机构股权占比" with
           | .pstr s => if pyStrip s = "" then rule.vcPercent else normalize_percent_str (some s) 0
           | _ => rule.vcPercent)
        -- flags (lines 294–297)
        hasBoardAppointee :=
          (let v := pyStrip (pyToStr (llmGet llm "风投机构是否委派董事"))
           if v = "0" || v = "1" then v else rule.hasBoardAppointee)
        hasSupervisorAppointee :=
          (let v := pyStrip (pyToStr (llmGet llm "风投机构是否委派监事"))
           if v = "0" || v = "1" then v else rule.hasSupervisorAppointee)
        hasExecutiveAppointee :=
          (let v := pyStrip (pyToStr (llmGet llm "风投机构是否委派高管"))
           if v = "0" || v = "1" then v else rule.hasExecutiveAppointee)
        -- types (lines 300–303)
        boardAppointeeType :=
          (match llmGet llm "风投机构委派董事的类型" with
           | .pstr s => pyStrip s
           | _ => rule.boardAppointeeType)
        supervisorAppointeeType :=
          (match llmGet llm "风投机构委派监事的类型" with
           | .pstr s => pyStrip s
           | _ => rule.supervisorAppointeeType)
        executiveAppointeeType :=
          (match llmGet llm "风投机构委派高管的类型" with
           | .pstr s => pyStrip s
           | _ => rule.executiveAppointeeType) }

/-- The merge with the Python heap made explicit: the first
component tracks the dict the `rule` argument refers to, the second the
returned dict.  `return rule` aliases the argument; `dict(rule)` makes
the copy all subsequent `result[key] = ...` statements write to, so the
first component is threaded through unchanged. -/
def merge_results_tracked (rule : ExtractionRecord) (llm? : Option LLMDict) :
    ExtractionRecord × ExtractionRecord :=
  match llm? with
  | none => (rule, rule)
  | some llm =>
    if llm = ([] : List (String × PyVal)) then (rule, rule)
    else (rule, merge_results rule (some llm))

/-! ## LLM reply handling (`ask_llm`, source lines 254–273) -/

/-- Lines 255–264: strip surrounding whitespace, then a leading
```` ```json ```` or ```` ``` ```` fence and, if present after that, a
trailing ```` ``` ```` fence, re-stripping around each removal. -/
def stripFence (reply : String) : String :=
  let cleaned := pyStripChars reply.toList
  let dropEnd (cs : List Char) : List Char :=
    if listStarts "```".toList.reverse cs.reverse then
      pyStripChars (cs.take (cs.length - 3))
    else cs
  let cleaned :=
    if listStarts "```json".toList cleaned then
      dropEnd (pyStripChars (cleaned.drop 7))
    else if listStarts "```".toList cleaned then
      dropEnd (pyStripChars (cleaned.drop 3))
    else cleaned
  String.mk cleaned

/-- Lines 254–273 after the transport call: `json.loads` — an external
library function, abstracted as any partial parser `loads` — is applied
to the fence-stripped reply; a parse failure (the `JSONDecodeError`
branch) yields `none` instead of propagating an exception. -/
def ask_llm_parse (loads : String → Option LLMDict) (reply : String) : Option LLMDict :=
  match loads (stripFence reply) with
  | some parsed => some parsed
  | none => none

/-! ## The merge policy in the specification's words (for claim C3)

The following definitions follow the wording of spec §4.5 (as amended
by the counterexample to C3), not the source text, so that the merge
can be compared against them field by field. -/

/-- Spec §4.5, identity fields, amended to name the stored value: take
the LLM value, trimmed, when it is a string that is non-empty after
trimming; otherwise keep the rule value. -/
def specTakeIdent (v : PyVal) (ruleVal : String) : String :=
  match v with
  | .pstr s => if pyStrip s ≠ "" then pyStrip s else ruleVal
  | _ => ruleVal

/-- Spec §4.5, `vcPercent`: when the LLM supplies a non-empty string,
parse and renormalize it; otherwise keep the rule value. -/
def specTakePercent (v : PyVal) (ruleVal : String) : String :=
  match v with
  | .pstr s => if pyStrip s ≠ "" then normalize_percent_str (some s) 0 else ruleVal
  | _ => ruleVal

/-- Spec §4.5, appointee flags, amended: take the LLM value when its
trimmed `str()` rendering is exactly `"0"` or `"1"`; otherwise keep the
rule value. -/
def specTakeFlag (v : PyVal) (ruleVal : String) : String :=
  let t := pyStrip (pyToStr v)
  if t = "0" ∨ t = "1" then t else ruleVal

/-- Spec §4.5, appointee-type fields, amended: take the LLM's trimmed
value whenever it is a string — an absent key defaults to the empty
string and is therefore taken as `""` — and keep the rule value when
the LLM supplied a non-string. -/
def specTakeType (v : PyVal) (ruleVal : String) : String :=
  match v with
  | .pstr s => pyStrip s
  | _ => ruleVal

/-- The merge policy of spec §4.5 for a present, non-empty LLM record,
assembled field by field. -/
def mergeSpec (rule : ExtractionRecord) (llm : LLMDict) : ExtractionRecord where
  stockCode := specTakeIdent (llmGet llm "股票代码") rule.stockCode
  companyName := specTakeIdent (llmGet llm "公司简称") rule.companyName
  vcName := specTakeIdent (llmGet llm "最大风投机构名称") rule.vcName
  vcPercent := specTakePercent (llmGet llm "最大风投机构股权占比") rule.vcPercent
  hasBoardAppointee := specTakeFlag (llmGet llm "风投机构是否委派董事") rule.hasBoardAppointee
  hasSupervisorAppointee := specTakeFlag (llmGet llm "风投机构是否委派监事") rule.hasSupervisorAppointee
  hasExecutiveAppointee := specTakeFlag (llmGet llm "风投机构是否委派高管") rule.hasExecutiveAppointee
  boardAppointeeType := specTakeType (llmGet llm "风投机构委派董事的类型") rule.boardAppointeeType
  supervisorAppointeeType := specTakeType (llmGet llm "风投机构委派监事的类型") rule.supervisorAppointeeType
  executiveAppointeeType := specTakeType (llmGet llm "风投机构委派高管的类型") rule.executiveAppointeeType

/-! ## Properties of the stable descending sort -/

theorem insertDesc_perm (x : String × Rat) (l : List (String × Rat)) :
    (insertDesc x l).Perm (x :: l) := by
  induction l with
  | nil => exact List.Perm.refl _
  | cons y ys ih =>
    unfold insertDesc
    by_cases h : y.2 ≤ x.2
    · rw [if_pos h]
    · rw [if_neg h]
      exact (ih.cons y).trans (List.Perm.swap x y ys)

theorem sortDesc_perm (l : List (String × Rat)) : (sortDesc l).Perm l := by
  induction l with
  | nil => exact List.Perm.refl _
  | cons x xs ih => exact (insertDesc_perm x (sortDesc xs)).trans (ih.cons x)

theorem insertDesc_pairwise (x : String × Rat) (l : List (String × Rat))
    (hl : l.Pairwise (fun a b => b.2 ≤ a.2)) :
    (insertDesc x l).Pairwise (fun a b => b.2 ≤ a.2) := by
  induction l with
  | nil => simp [insertDesc]
  | cons y ys ih =>
    rw [List.pairwise_cons] at hl
    obtain ⟨hy, hys⟩ := hl
    unfold insertDesc
    by_cases h : y.2 ≤ x.2
    · rw [if_pos h]
      rw [List.pairwise_cons]
      constructor
      · intro z hz
        rcases List.mem_cons.mp hz with hz | hz
        · exact hz ▸ h
        · exact le_trans (hy z hz) h
      · rw [List.pairwise_cons]
        exact ⟨hy, hys⟩
    · rw [if_neg h]
      rw [List.pairwise_cons]
      constructor
      · intro z hz
        rcases List.mem_cons.mp ((insertDesc_perm x ys).mem_iff.mp hz) with hz | hz
        · exact hz ▸ le_of_lt (lt_of_not_le h)
        · exact hy z hz
      · exact ih hys

theorem sortDesc_pairwise (l : List (String × Rat)) :
    (sortDesc l).Pairwise (fun a b => b.2 ≤ a.2) := by
  induction l with
  | nil => simp [sortDesc]
  | cons x xs ih => exact insertDesc_pairwise x (sortDesc xs) ih

theorem insertDesc_filter (x : String × Rat) (l : List (String × Rat)) (q : Rat) :
    (insertDesc x l).filter (fun c => c.2 == q) =
      if x.2 = q then x :: l.filter (fun c => c.2 == q)
      else l.filter (fun c => c.2 == q) := by
  induction l with
  | nil => by_cases h : x.2 = q <;> simp [insertDesc, List.filter_cons, h]
  | cons y ys ih =>
    unfold insertDesc
    by_cases h : y.2 ≤ x.2
    · rw [if_pos h]
      by_cases hx : x.2 = q <;> by_cases hy : y.2 = q <;>
        simp [List.filter_cons, hx, hy]
    · rw [if_neg h]
      have hxy : x.2 < y.2 := lt_of_not_le h
      by_cases hx : x.2 = q
      · have hy : ¬ y.2 = q := by
          intro hyq
          exact absurd (hx ▸ hyq ▸ hxy) (lt_irrefl _)
        simp [List.filter_cons, hx, hy, ih]
      · by_cases hy : y.2 = q <;> simp [List.filter_cons, hx, hy, ih]

theorem sortDesc_filter (l : List (String × Rat)) (q : Rat) :
    (sortDesc l).filter (fun c => c.2 == q) = l.filter (fun c => c.2 == q) := by
  induction l with
  | nil => rfl
  | cons x xs ih =>
    show (insertDesc x (sortDesc xs)).filter _ = _
    rw [insertDesc_filter]
    by_cases hx : x.2 = q <;> simp [List.filter_cons, hx, ih]

/-! ## Claim theorems -/

/-- C2, counterexample.  In the code a line with no valid percentage
token enters the hit list with percent `0.0`, indistinguishable from an
observed `0.0`; the stable sort therefore leaves such a candidate
*above* a later candidate whose line showed an explicit `0%`,
contradicting the claim that no-percent candidates rank below every
candidate with an observed percent.  Here line `"AB基金"` has no
percentage token while line `"CD基金 0%"` observes `0.0`, yet the
no-percent candidate is ranked first. -/
theorem C2_unset_percent_counterexample :
    linePercent? "AB基金".toList = none ∧
    linePercent? "CD基金 0%".toList = some 0 ∧
    extract_vc_candidates "AB基金\nCD基金 0%" = [("AB基金", 0), ("CD基金", 0)] := by
  refine ⟨?_, ?_, ?_⟩ <;> with_unfolding_all rfl

/-- C2, amended: for every input text the candidate list is the stable
descending sort of the per-line hits — a permutation of them, pairwise
non-increasing in percent, and for every percent value the candidates
carrying that percent keep their original line order.  A line without a
valid percentage token enters with percent `0.0` and is ranked exactly
like an observed `0.0` (ties broken by line order), not below it. -/
theorem C2_candidates_sorted_stable (text : String) :
    (extract_vc_candidates text).Perm (vcHits text) ∧
    (extract_vc_candidates text).Pairwise (fun a b => b.2 ≤ a.2) ∧
    ∀ q : Rat, (extract_vc_candidates text).filter (fun c => c.2 == q) =
      (vcHits text).filter (fun c => c.2 == q) :=
  ⟨sortDesc_perm (vcHits text), sortDesc_pairwise (vcHits text),
   fun q => sortDesc_filter (vcHits text) q⟩

/-- C5: percent normalization strips `%`, parses, falls back on
failure, clamps to `[0,100]` and formats two decimals plus `%`; the
three cited instances hold, and every output is the two-decimal
formatting of a value clamped into `[0,100]`. -/
theorem C5_normalize_percent (v : String) (fb : Rat) :
    normalize_percent_str (some "8") 0 = "8.00%" ∧
    normalize_percent_str (some "150%") 0 = "100.00%" ∧
    normalize_percent_str (some "abc") 5 = "5.00%" ∧
    ∃ q : Rat, 0 ≤ q ∧ q ≤ 100 ∧
      normalize_percent_str (some v) fb = fmt2 q ++ "%" := by
  refine ⟨by with_unfolding_all rfl, by with_unfolding_all rfl,
    by with_unfolding_all rfl, _, le_max_left 0 _, ?_, rfl⟩
  exact max_le (by norm_num) (min_le_left _ _)

/-- C6: merging a rule record with an absent (`None`) LLM result is the
identity on the rule record. -/
theorem C6_merge_none_identity (rule : ExtractionRecord) :
    merge_results rule none = rule := rfl

/-- C7: when `json.loads` fails on the fence-stripped reply, the hybrid
refiner returns no LLM result instead of raising, and the merged final
record equals the rule-based record. -/
theorem C7_parse_failure_falls_back (loads : String → Option LLMDict)
    (reply : String) (rule : ExtractionRecord)
    (h : loads (stripFence reply) = none) :
    ask_llm_parse loads reply = none ∧
    merge_results rule (ask_llm_parse loads reply) = rule := by
  unfold ask_llm_parse
  rw [h]
  exact ⟨rfl, rfl⟩

/-- C7, witness: a fenced non-JSON reply with a parser rejecting it. -/
theorem C7_witness :
    ask_llm_parse (fun _ => none) "```json\nnot-json\n```" = none ∧
    merge_results
      { stockCode := "000001", companyName := "甲", vcName := "乙基金",
        vcPercent := "8.00%", hasBoardAppointee := "1",
        hasSupervisorAppointee := "0", hasExecutiveAppointee := "0",
        boardAppointeeType := "", supervisorAppointeeType := "",
        executiveAppointeeType := "" }
      (ask_llm_parse (fun _ => none) "```json\nnot-json\n```") =
      { stockCode := "000001", companyName := "甲", vcName := "乙基金",
        vcPercent := "8.00%", hasBoardAppointee := "1",
        hasSupervisorAppointee := "0", hasExecutiveAppointee := "0",
        boardAppointeeType := "", supervisorAppointeeType := "",
        executiveAppointeeType := "" } :=
  C7_parse_failure_falls_back (fun _ => none) "```json\nnot-json\n```" _ rfl

/-- C9: on the cited two-line scenario the Rule Engine record carries
the capital firm's name (the scanner's lazy first match, a substring of
the full firm name 深圳市创新投资集团), percent `"12.50%"`, a board
appointee flag `"1"` and a supervisor flag `"0"`. -/
theorem C9_end_to_end_scenario :
    ((rule_based_result "深圳市创新投资集团 持股 12.50%\n公司董事由深圳市创新投资集团委派" "a.pdf").1.vcName =
      "深圳市创新投资") ∧
    strIn (rule_based_result "深圳市创新投资集团 持股 12.50%\n公司董事由深圳市创新投资集团委派" "a.pdf").1.vcName
      "深圳市创新投资集团" = true ∧
    (rule_based_result "深圳市创新投资集团 持股 12.50%\n公司董事由深圳市创新投资集团委派" "a.pdf").1.vcPercent =
      "12.50%" ∧
    (rule_based_result "深圳市创新投资集团 持股 12.50%\n公司董事由深圳市创新投资集团委派" "a.pdf").1.hasBoardAppointee =
      "1" ∧
    (rule_based_result "深圳市创新投资集团 持股 12.50%\n公司董事由深圳市创新投资集团委派" "a.pdf").1.hasSupervisorAppointee =
      "0" := by
  refine ⟨?_, ?_, ?_, ?_, ?_⟩ <;> with_unfolding_all rfl

/-- C10: with the Python heap made explicit, the merge never writes to
the rule record — the tracked rule object is returned unchanged while
the result agrees with the pure merge — so after the call every field
of the rule argument has its pre-call value. -/
theorem C10_merge_preserves_rule (rule : ExtractionRecord) (llm? : Option LLMDict) :
    (merge_results_tracked rule llm?).1 = rule ∧
    (merge_results_tracked rule llm?).2 = merge_results rule llm? := by
  cases llm? with
  | none => exact ⟨rfl, rfl⟩
  | some llm =>
    by_cases h : llm = ([] : List (String × PyVal)) <;>
      simp [merge_results_tracked, merge_results, h]

/-- C1, counterexample.  The merge adopts LLM flag, percent and type
values without consulting `vcName`, so a pipeline-producible merged
record can have an empty `vcName` together with a board-appointee flag
`"1"`: merging the empty-text rule record with an LLM reply that only
sets the board flag. -/
theorem C1_merged_record_counterexample :
    (merge_results (rule_based_result "" "").1
        (some [("风投机构是否委派董事", PyVal.pstr "1")])).vcName = "" ∧
    (merge_results (rule_based_result "" "").1
        (some [("风投机构是否委派董事", PyVal.pstr "1")])).hasBoardAppointee = "1" := by
  refine ⟨?_, ?_⟩ <;> with_unfolding_all rfl

/-- C1, amended: the invariant holds for the rule-based record — an
empty `vcName` forces `vcPercent = "0%"`, all three appointee flags
`"0"` and all three appointee-type fields empty — and it carries over
to a merged record only when the LLM record is absent; a present LLM
record can set the dependent fields independently of `vcName`. -/
theorem C1_rule_record_empty_defaults (text filename : String)
    (h : (rule_based_result text filename).1.vcName = "") :
    (rule_based_result text filename).1.vcPercent = "0%" ∧
    (rule_based_result text filename).1.hasBoardAppointee = "0" ∧
    (rule_based_result text filename).1.hasSupervisorAppointee = "0" ∧
    (rule_based_result text filename).1.hasExecutiveAppointee = "0" ∧
    (rule_based_result text filename).1.boardAppointeeType = "" ∧
    (rule_based_result text filename).1.supervisorAppointeeType = "" ∧
    (rule_based_result text filename).1.executiveAppointeeType = "" := by
  have h' : (pick_best_candidate (extract_vc_candidates text)).1 = "" := h
  simp only [rule_based_result, h', flag_role, if_pos rfl, ne_eq,
    not_true_eq_false, if_false, reduceIte]
  exact ⟨trivial, trivial, trivial, trivial, trivial, trivial, trivial⟩

/-- C1, witness: the empty text yields an empty `vcName`. -/
theorem C1_witness :
    (rule_based_result "" "").1.vcPercent = "0%" ∧
    (rule_based_result "" "").1.hasBoardAppointee = "0" ∧
    (rule_based_result "" "").1.hasSupervisorAppointee = "0" ∧
    (rule_based_result "" "").1.hasExecutiveAppointee = "0" ∧
    (rule_based_result "" "").1.boardAppointeeType = "" ∧
    (rule_based_result "" "").1.supervisorAppointeeType = "" ∧
    (rule_based_result "" "").1.executiveAppointeeType = "" :=
  C1_rule_record_empty_defaults "" "" (by with_unfolding_all rfl)

/-- An identity-field update of the merge equals the spec's clause. -/
theorem takeIdent_eq (v : PyVal) (d : String) :
    (match v with
     | .pstr s => if pyStrip s = "" then d else pyStrip s
     | _ => d) = specTakeIdent v d := by
  cases v with
  | pstr s =>
    by_cases h : pyStrip s = "" <;> simp [specTakeIdent, h]
  | pint n => rfl
  | pbool b => rfl
  | pnull => rfl

/-- The percent update of the merge equals the spec's clause. -/
theorem takePercent_eq (v : PyVal) (d : String) :
    (match v with
     | .pstr s => if pyStrip s = "" then d else normalize_percent_str (some s) 0
     | _ => d) = specTakePercent v d := by
  cases v with
  | pstr s =>
    by_cases h : pyStrip s = "" <;> simp [specTakePercent, h]
  | pint n => rfl
  | pbool b => rfl
  | pnull => rfl

/-- A flag update of the merge equals the spec's clause. -/
theorem takeFlag_eq (v : PyVal) (d : String) :
    (let t := pyStrip (pyToStr v)
     if t = "0" || t = "1" then t else d) = specTakeFlag v d := by
  unfold specTakeFlag
  by_cases h0 : pyStrip (pyToStr v) = "0" <;>
    by_cases h1 : pyStrip (pyToStr v) = "1" <;> simp [h0, h1]

/-- A type-field update of the merge equals the spec's clause. -/
theorem takeType_eq (v : PyVal) (d : String) :
    (match v with
     | .pstr s => pyStrip s
     | _ => d) = specTakeType v d := by
  cases v <;> rfl

/-- C3, counterexample.  The merge coerces flag values with `str()` and
`strip()` before the `{"0","1"}` test, so the string `" 1"` — not
exactly `"0"` or `"1"` — is accepted; and a type field whose LLM value
is not a string (here the integer `3`) keeps the rule value instead of
the LLM's trimmed value, although the LLM record is present. -/
theorem C3_merge_counterexample :
    llmGet [("风投机构是否委派董事", PyVal.pstr " 1"),
            ("风投机构委派监事的类型", PyVal.pint 3)] "风投机构是否委派董事" =
      PyVal.pstr " 1" ∧
    PyVal.pstr " 1" ≠ PyVal.pstr "0" ∧ PyVal.pstr " 1" ≠ PyVal.pstr "1" ∧
    (merge_results
      { stockCode := "", companyName := "", vcName := "X", vcPercent := "0%",
        hasBoardAppointee := "0", hasSupervisorAppointee := "0",
        hasExecutiveAppointee := "0", boardAppointeeType := "",
        supervisorAppointeeType := "Y", executiveAppointeeType := "" }
      (some [("风投机构是否委派董事", PyVal.pstr " 1"),
             ("风投机构委派监事的类型", PyVal.pint 3)])).hasBoardAppointee = "1" ∧
    (merge_results
      { stockCode := "", companyName := "", vcName := "X", vcPercent := "0%",
        hasBoardAppointee := "0", hasSupervisorAppointee := "0",
        hasExecutiveAppointee := "0", boardAppointeeType := "",
        supervisorAppointeeType := "Y", executiveAppointeeType := "" }
      (some [("风投机构是否委派董事", PyVal.pstr " 1"),
             ("风投机构委派监事的类型", PyVal.pint 3)])).supervisorAppointeeType = "Y" := by
  refine ⟨?_, ?_, ?_, ?_, ?_⟩ <;> with_unfolding_all first | rfl | decide

/-- C3, amended: for every rule record and every present, non-empty LLM
record the merge realizes, field for field, the spec §4.5 policy with
these precisions: identity fields (and the percent) take the *trimmed*
LLM value when it is a string non-empty after trimming; a flag takes
the LLM value when its trimmed `str()` rendering is exactly `"0"` or
`"1"` (so `" 1"` or the integer `1` are accepted); a type field takes
the LLM's trimmed value whenever it is a string — an absent key
defaults to `""` and is taken — and keeps the rule value for a
non-string. -/
theorem C3_merge_follows_spec (rule : ExtractionRecord) (p : String × PyVal)
    (rest : List (String × PyVal)) :
    merge_results rule (some (p :: rest)) = mergeSpec rule (p :: rest) := by
  unfold merge_results mergeSpec
  simp only [List.cons_ne_nil, if_false, reduceIte]
  rw [takeIdent_eq, takeIdent_eq, takeIdent_eq, takePercent_eq,
    takeFlag_eq, takeFlag_eq, takeFlag_eq, takeType_eq, takeType_eq, takeType_eq,
    if_neg (List.cons_ne_nil p rest)]

/-- The loop body of `flag_role` fires at `i` exactly when line `i`
exists, contains the VC name, and a keyword occurs on it, on the line
before it (when `i > 0`), or on the line after it. -/
theorem roleHitAt_iff (lines : List String) (vc_name : String)
    (keywords : List String) (i : Nat) :
    roleHitAt lines vc_name keywords i = true ↔
      ∃ line, lines[i]? = some line ∧ strIn vc_name line = true ∧
        (keywords.any (fun k => strIn k line) = true ∨
         (0 < i ∧ ∃ prev, lines[i - 1]? = some prev ∧
            keywords.any (fun k => strIn k prev) = true) ∨
         (∃ next, lines[i + 1]? = some next ∧
            keywords.any (fun k => strIn k next) = true)) := by
  unfold roleHitAt
  cases hl : lines[i]? with
  | none => simp
  | some line =>
    cases hp : lines[i - 1]? with
    | none =>
      cases hq : lines[i + 1]? with
      | none =>
        have h2 : ¬ i + 1 < lines.length :=
          not_lt.mpr (List.getElem?_eq_none_iff.mp hq)
        simp [h2, and_or_left, exists_or, exists_eq_left']
      | some nx =>
        have h2 : i + 1 < lines.length :=
          (List.getElem?_eq_some_iff.mp hq).1
        simp [h2, and_or_left, exists_or, exists_eq_left']
    | some pv =>
      cases hq : lines[i + 1]? with
      | none =>
        have h2 : ¬ i + 1 < lines.length :=
          not_lt.mpr (List.getElem?_eq_none_iff.mp hq)
        simp [h2, and_or_left, exists_or, exists_eq_left']
      | some nx =>
        have h2 : i + 1 < lines.length :=
          (List.getElem?_eq_some_iff.mp hq).1
        simp [h2, and_or_left, exists_or, exists_eq_left']

/-- C4: the Role Tagger answers `"1"` exactly when the VC name is
non-empty and some line of the text contains it verbatim with a role
keyword on that line, the line immediately before, or the line
immediately after; an empty name always answers `"0"`. -/
theorem C4_flag_role_window (text vc_name : String) (keywords : List String) :
    flag_role text "" keywords = "0" ∧
    (flag_role text vc_name keywords = "1" ↔
      (vc_name ≠ "" ∧ ∃ i line, (pyLines text)[i]? = some line ∧
        strIn vc_name line = true ∧
        (keywords.any (fun k => strIn k line) = true ∨
         (0 < i ∧ ∃ prev, (pyLines text)[i - 1]? = some prev ∧
            keywords.any (fun k => strIn k prev) = true) ∨
         (∃ next, (pyLines text)[i + 1]? = some next ∧
            keywords.any (fun k => strIn k next) = true)))) := by
  refine ⟨by simp [flag_role], ?_⟩
  unfold flag_role
  by_cases hn : vc_name = ""
  · simp [hn]
  · rw [if_neg hn]
    by_cases hany :
        (List.range (pyLines text).length).any
          (roleHitAt (pyLines text) vc_name keywords) = true
    · rw [if_pos hany]
      constructor
      · intro _
        refine ⟨hn, ?_⟩
        obtain ⟨i, _, hi⟩ := List.any_eq_true.mp hany
        obtain ⟨line, h1, h2, h3⟩ := (roleHitAt_iff _ _ _ _).mp hi
        exact ⟨i, line, h1, h2, h3⟩
      · intro _
        rfl
    · rw [if_neg hany]
      refine iff_of_false (by simp) ?_
      rintro ⟨-, i, line, hl, hv, hw⟩
      apply hany
      refine List.any_eq_true.mpr ⟨i, List.mem_range.mpr ?_, ?_⟩
      · exact (List.getElem?_eq_some_iff.mp hl).1
      · exact (roleHitAt_iff _ _ _ _).mpr ⟨line, hl, hv, hw⟩

/-- C8: when no line of the text contains any VC keyword, the
Candidate Scanner returns the empty list and the rule-based record has
an empty `vcName`, percent `"0%"`, all flags `"0"` and all type fields
empty. -/
theorem C8_no_keyword_defaults (text filename : String)
    (h : ∀ line ∈ pyLines text, ∀ k ∈ VC_KEYWORDS, strIn k line = false) :
    extract_vc_candidates text = [] ∧
    (rule_based_result text filename).1.vcName = "" ∧
    (rule_based_result text filename).1.vcPercent = "0%" ∧
    (rule_based_result text filename).1.hasBoardAppointee = "0" ∧
    (rule_based_result text filename).1.hasSupervisorAppointee = "0" ∧
    (rule_based_result text filename).1.hasExecutiveAppointee = "0" ∧
    (rule_based_result text filename).1.boardAppointeeType = "" ∧
    (rule_based_result text filename).1.supervisorAppointeeType = "" ∧
    (rule_based_result text filename).1.executiveAppointeeType = "" := by
  have hhits : vcHits text = [] := by
    rw [vcHits, List.filterMap_eq_nil_iff]
    intro cs hcs
    have h1 := h (String.mk cs) (List.mem_map_of_mem _ hcs)
    unfold lineHit?
    have hany : VC_KEYWORDS.any (fun k => isSubstr k.toList cs) = false := by
      rw [List.any_eq_false]
      intro k hk
      have := h1 k hk
      simpa [strIn] using this
    rw [hany]
    simp
  have hc : extract_vc_candidates text = [] := by
    rw [extract_vc_candidates, hhits]
    rfl
  have hn : (pick_best_candidate (extract_vc_candidates text)).1 = "" := by
    rw [hc]
    rfl
  refine ⟨hc, hn, ?_⟩
  simp only [rule_based_result, hn, flag_role, if_pos rfl, ne_eq,
    not_true_eq_false, if_false, reduceIte]
  exact ⟨trivial, trivial, trivial, trivial, trivial, trivial, trivial⟩

/-- C8, witness: a two-line text with no VC keyword. -/
theorem C8_witness :
    extract_vc_candidates "hello\nworld" = [] ∧
    (rule_based_result "hello\nworld" "a.pdf").1.vcName = "" ∧
    (rule_based_result "hello\nworld" "a.pdf").1.vcPercent = "0%" ∧
    (rule_based_result "hello\nworld" "a.pdf").1.hasBoardAppointee = "0" ∧
    (rule_based_result "hello\nworld" "a.pdf").1.hasSupervisorAppointee = "0" ∧
    (rule_based_result "hello\nworld" "a.pdf").1.hasExecutiveAppointee = "0" ∧
    (rule_based_result "hello\nworld" "a.pdf").1.boardAppointeeType = "" ∧
    (rule_based_result "hello\nworld" "a.pdf").1.supervisorAppointeeType = "" ∧
    (rule_based_result "hello\nworld" "a.pdf").1.executiveAppointeeType = "" :=
  C8_no_keyword_defaults "hello\nworld" "a.pdf" (by with_unfolding_all decide)

end VCExtract
